import Mathlib

/-!
Verification of the bilingual used-car listing pipeline: a shallow
embedding of the record mapper, field formatters, locale resolver and
collection filter/sorter found in the pages of the repository
(the cars listing page, the car detail page and the home page).

JavaScript values that flow through the formatters are modelled by a
small variant type; machine numbers are modelled by Int, with NaN
modelled as Option.none where it can arise.  The stable sort of
Array.prototype.sort (stable since ES2019) is modelled by
List.mergeSort on the comparator-induced boolean relation, and the
ES SortCompare rule mapping a NaN comparator result to +0 is applied
explicitly.
-/

namespace HudaStrapi

/-- A JavaScript value as it reaches the field formatters: absent
(undefined), a number, or a string. -/
inductive JsVal where
  | undefined
  | num (n : Int)
  | str (s : String)
deriving DecidableEq

/-- JavaScript truthiness for the values of JsVal (undefined and the
empty string and the number zero are falsy). -/
def jsTruthy : JsVal → Bool
  | .undefined => false
  | .num n => n != 0
  | .str s => s != ""

/-- Reversed decimal digit characters of a natural number, with fuel
to keep the recursion structural. -/
def natCharsRev : Nat → Nat → List Char
  | 0, _ => []
  | fuel + 1, n => if n < 10 then [Nat.digitChar n] else Nat.digitChar (n % 10) :: natCharsRev fuel (n / 10)

/-- Decimal digit characters of a natural number. -/
def natChars (n : Nat) : List Char := (natCharsRev (n + 1) n).reverse

/-- The JavaScript ToString conversion of an integer. -/
def intToString (n : Int) : String :=
  if n < 0 then "-" ++ String.mk (natChars n.natAbs) else String.mk (natChars n.natAbs)

/-- The JavaScript ToString conversion of the values of JsVal, as used
when such a value is handed to parseInt. -/
def jsToString : JsVal → String
  | .undefined => "undefined"
  | .num n => intToString n
  | .str s => s

/-- Numeric value of a list of decimal digit characters. -/
def digitsToNat (ds : List Char) : Nat :=
  ds.foldl (fun acc c => 10 * acc + (c.toNat - 48)) 0

/-- Value of the maximal leading run of decimal digits, or none when
there is no leading digit (the NaN outcome). -/
def parseDigits (cs : List Char) : Option Nat :=
  let ds := cs.takeWhile Char.isDigit
  if ds.isEmpty then none else some (digitsToNat ds)

/-- Sign and digit handling of parseInt after whitespace stripping. -/
def parseIntChars : List Char → Option Int
  | [] => none
  | c :: rest =>
    if c = '-' then (parseDigits rest).map (fun n => -(n : Int))
    else if c = '+' then (parseDigits rest).map (fun n => (n : Int))
    else (parseDigits (c :: rest)).map (fun n => (n : Int))

/-- JavaScript parseInt with radix 10 on a string: skip leading
whitespace, read an optional sign and then the maximal run of decimal
digits, ignoring any trailing characters; none models the NaN result
when no digit is found. -/
def parseInt (s : String) : Option Int :=
  parseIntChars (s.data.dropWhile Char.isWhitespace)

/-- Insert a comma after every group of three characters of a reversed
digit list, as the default grouping of Number.prototype.toLocaleString. -/
def chunk3 : List Char → List Char
  | d1 :: d2 :: d3 :: d4 :: rest => d1 :: d2 :: d3 :: ',' :: chunk3 (d4 :: rest)
  | l => l

/-- Number.prototype.toLocaleString on an integer: decimal digits
grouped in threes by commas, with a leading minus sign when negative. -/
def toLocaleString (n : Int) : String :=
  if n < 0 then "-" ++ String.mk ((chunk3 (natCharsRev (n.natAbs + 1) n.natAbs)).reverse)
  else String.mk ((chunk3 (natCharsRev (n.natAbs + 1) n.natAbs)).reverse)

/-- Number.prototype.toLocaleString on a possibly-NaN number: the NaN
value renders as the string NaN. -/
def numToLocaleString : Option Int → String
  | none => "NaN"
  | some n => toLocaleString n

/-- Whether the first list is an initial segment of the second. -/
def firstMatches : List Char → List Char → Bool
  | [], _ => true
  | _ :: _, [] => false
  | a :: as, b :: bs => a == b && firstMatches as bs

/-- Whether the first list occurs contiguously inside the second. -/
def occursIn (needle : List Char) : List Char → Bool
  | [] => needle.isEmpty
  | c :: rest => firstMatches needle (c :: rest) || occursIn needle rest

/-- String.prototype.includes: substring containment. -/
def includes (hay needle : String) : Bool := occursIn needle.data hay.data

/-- String.prototype.toLowerCase, character by character (the inputs
exercised here are ASCII and Japanese text, on which this agrees with
the JavaScript function). -/
def toLowerCase (s : String) : String := String.mk (s.data.map Char.toLower)

/-- String.prototype.trim: strip leading and trailing whitespace. -/
def trim (s : String) : String :=
  String.mk ((s.data.dropWhile Char.isWhitespace).reverse.dropWhile Char.isWhitespace).reverse

/-- String.prototype.startsWith: the second string is an initial
segment of the first. -/
def startsWithStr (s p : String) : Bool := firstMatches p.data s.data

/-- A JSON value of the fragment exercised by the specifications
payloads: string literals and objects (an object is an ordered list of
key-value entries, so key order is part of the value). -/
inductive Json where
  | str (s : String)
  | obj (m : List (String × Json))

/-- The opening brace character. -/
def braceOpen : Char := Char.ofNat 123

/-- The closing brace character. -/
def braceClose : Char := Char.ofNat 125

/-- Drop leading JSON whitespace. -/
def skipWs (cs : List Char) : List Char :=
  cs.dropWhile (fun c => c == ' ' || c == '\t' || c == '\n' || c == '\r')

/-- Read the body of a JSON string literal after its opening quote,
up to the closing quote; escape sequences are outside the fragment
exercised here and make the parse fail. -/
def parseStrBody : List Char → Option (List Char × List Char)
  | [] => none
  | c :: rest =>
    if c == '"' then some ([], rest)
    else if c == '\\' then none
    else (parseStrBody rest).map (fun p => (c :: p.1, p.2))

mutual

/-- Recursive-descent parse of one JSON value (string or object) of
the fragment used by the specifications payloads, modelling JSON.parse;
the fuel argument keeps the recursion structural. -/
def parseJsonVal : Nat → List Char → Option (Json × List Char)
  | 0, _ => none
  | fuel + 1, cs =>
    match skipWs cs with
    | [] => none
    | c :: rest =>
      if c == '"' then
        (parseStrBody rest).map (fun p => (Json.str (String.mk p.1), p.2))
      else if c == braceOpen then
        match skipWs rest with
        | c2 :: rest2 =>
          if c2 == braceClose then some (Json.obj [], rest2)
          else
            (parseObjEntries fuel (c2 :: rest2)).map (fun p => (Json.obj p.1, p.2))
        | [] => none
      else none

/-- Parse the nonempty entry list of a JSON object, consuming the
closing brace. -/
def parseObjEntries : Nat → List Char → Option (List (String × Json) × List Char)
  | 0, _ => none
  | fuel + 1, cs =>
    match skipWs cs with
    | c :: rest =>
      if c == '"' then
        match parseStrBody rest with
        | some (key, r1) =>
          match skipWs r1 with
          | c2 :: r2 =>
            if c2 == ':' then
              match parseJsonVal fuel r2 with
              | some (v, r3) =>
                match skipWs r3 with
                | c3 :: r4 =>
                  if c3 == ',' then
                    (parseObjEntries fuel r4).map
                      (fun p => ((String.mk key, v) :: p.1, p.2))
                  else if c3 == braceClose then some ([(String.mk key, v)], r4)
                  else none
                | [] => none
              | none => none
            else none
          | [] => none
        | none => none
      else none
    | [] => none

end

/-- JSON.parse restricted to the fragment used by the specifications
payloads (objects and strings): the whole input must be consumed up to
trailing whitespace; none models the SyntaxError throw. -/
def jsonParse (s : String) : Option Json :=
  match parseJsonVal (2 * s.length + 2) s.data with
  | some (j, rest) => if (skipWs rest).isEmpty then some j else none
  | none => none

/-- An English-Japanese string pair, for building concrete JSON
specification objects. -/
def locPair (en ja : String) : Json :=
  Json.obj [("en", Json.str en), ("ja", Json.str ja)]

/-- The raw specifications field of a CMS record: absent, a string, or
an object already in name-to-pair shape. -/
inductive SpecPayload where
  | undefined
  | str (s : String)
  | obj (m : List (String × Json))

/-- JavaScript truthiness of the specifications field. -/
def specTruthy : SpecPayload → Bool
  | .undefined => false
  | .str s => s != ""
  | .obj _ => true

/-- JavaScript ToString of the specifications field, as applied by
JSON.parse to its argument: a plain object stringifies to the literal
text "[object Object]". -/
def specToString : SpecPayload → String
  | .undefined => "undefined"
  | .str s => s
  | .obj _ => "[object Object]"

/-- One associated image record of a raw CMS listing, carrying its
relative url. -/
structure ImageRec where
  url : String
deriving DecidableEq

/-- A raw CMS listing as the pages read it from the response: every
field the mapping code accesses, each optional where the CMS can omit
it.  The year field is the numeric model year. -/
structure RawCar where
  id : Int := 0
  title_en : Option String := none
  title_ja : Option String := none
  price : JsVal := .undefined
  year : Int := 0
  mileage_en : JsVal := .undefined
  mileage_ja : JsVal := .undefined
  image : Option (List ImageRec) := none
  description_en : Option String := none
  description_ja : Option String := none
  specifications : SpecPayload := .undefined

/-- A bilingual field whose members are copied directly from the raw
record and may therefore be absent. -/
structure BilOpt where
  en : Option String
  ja : Option String
deriving DecidableEq

/-- A bilingual field whose members are produced by a formatter and
are always present. -/
structure BilStr where
  en : String
  ja : String
deriving DecidableEq

/-- The view model built by the cars listing page for one listing. -/
structure ViewCar where
  id : Int
  title : BilOpt
  price : Option Int
  year : Int
  mileage : BilStr
  img : Option String
deriving DecidableEq

/-- The view model built by the car detail page, extending the listing
shape with a description pair and a specifications value. -/
structure ViewCarDetail where
  id : Int
  title : BilOpt
  price : Option Int
  year : Int
  mileage : BilStr
  img : Option String
  description : BilStr
  specifications : Json

/-- The JavaScript logical-or fallback between a possibly absent
string and a default string, as in the description mapping: an absent
or empty left operand yields the default. -/
def jsOrD (v : Option String) (d : String) : String :=
  match v with
  | some s => if s = "" then d else s
  | none => d

/-- The JavaScript logical-or fallback between two possibly absent
strings, as in the title lookup of the filter: an absent or empty left
operand yields the right operand. -/
def jsOrOpt (a b : Option String) : Option String :=
  match a with
  | some s => if s = "" then b else some s
  | none => b

/-- JavaScript property access on a bilingual title object with a
locale string as the key: any key other than the two member names
yields undefined. -/
def titleLookup (t : BilOpt) (lang : String) : Option String :=
  if lang = "en" then t.en else if lang = "ja" then t.ja else none

namespace Cars

/-- The mileage formatting helper of the cars listing page: a falsy
input yields the fallback text, any other input is parsed with
parseInt and rendered with toLocaleString; a failed parse therefore
renders the NaN value. -/
def formatMileage (mileage : JsVal) : String :=
  if jsTruthy mileage = false then "N/A km"
  else numToLocaleString (parseInt (jsToString mileage)) ++ " km"

/-- The mapping of one raw record into the listing view model, as
performed inside the fetch of the cars listing page. -/
def mappedCar (strapiUrl : String) (car : RawCar) : ViewCar :=
  { id := car.id
    title := { en := car.title_en, ja := car.title_ja }
    price := parseInt (jsToString car.price)
    year := car.year
    mileage := { en := formatMileage car.mileage_en, ja := formatMileage car.mileage_ja }
    img :=
      match car.image with
      | none => none
      | some imgs =>
        if h : 0 < imgs.length then some (strapiUrl ++ (imgs.get ⟨0, h⟩).url) else none }

/-- The mapped collection of the cars listing page. -/
def mappedCars (strapiUrl : String) (data : List RawCar) : List ViewCar :=
  data.map (mappedCar strapiUrl)

/-- The filter predicate of the cars listing page: the title under the
current language with a logical-or fallback to the English title,
lowercased, tested for containment of the trimmed lowercased query; an
absent title makes the optional chaining yield undefined, which is
falsy. -/
def filterPred (currentLanguage query : String) (c : ViewCar) : Bool :=
  match jsOrOpt (titleLookup c.title currentLanguage) c.title.en with
  | none => false
  | some title => includes (toLowerCase title) (toLowerCase (trim query))

/-- The sort comparator of the cars listing page, returning a possibly
NaN number: price difference for the two price keys, reversed year
difference for the latest key, and zero otherwise. -/
def comparator (sort : String) (a b : ViewCar) : Option Int :=
  if sort = "price-low" then
    match a.price, b.price with
    | some x, some y => some (x - y)
    | _, _ => none
  else if sort = "price-high" then
    match b.price, a.price with
    | some x, some y => some (x - y)
    | _, _ => none
  else if sort = "latest" then some (b.year - a.year)
  else some 0

/-- The boolean ordering induced by the comparator under the ES
SortCompare rule: a NaN comparator value is treated as +0, and an
element precedes another when the comparator value is nonpositive. -/
def carLe (sort : String) (a b : ViewCar) : Bool :=
  (comparator sort a b).getD 0 ≤ 0

/-- Array.prototype.sort with the page comparator, modelled as the
stable merge sort on the induced boolean ordering. -/
def sortCars (sort : String) (l : List ViewCar) : List ViewCar :=
  l.mergeSort (carLe sort)

/-- The filtered and sorted collection of the cars listing page:
filter makes a fresh array, which sort then orders. -/
def filtered (cars : List ViewCar) (query sort currentLanguage : String) : List ViewCar :=
  sortCars sort (cars.filter (filterPred currentLanguage query))

end Cars

namespace Home

/-- The mileage formatting helper of the home page: identical to the
cars listing page helper except for an explicit NaN check that turns a
failed parse into the fallback text. -/
def formatMileage (mileage : JsVal) : String :=
  if jsTruthy mileage = false then "N/A km"
  else
    match parseInt (jsToString mileage) with
    | none => "N/A km"
    | some n => toLocaleString n ++ " km"

end Home

namespace CarDetail

/-- The mileage formatting helper of the car detail page, textually
identical to the one of the cars listing page. -/
def formatMileage (mileage : JsVal) : String :=
  if jsTruthy mileage = false then "N/A km"
  else numToLocaleString (parseInt (jsToString mileage)) ++ " km"

/-- The fixed default specifications object substituted when the raw
record carries no specifications field: four entries in this order,
each an en-ja pair of the text N/A. -/
def defaultSpecifications : Json :=
  Json.obj
    [("engine", locPair "N/A" "N/A"),
     ("transmission", locPair "N/A" "N/A"),
     ("fuel", locPair "N/A" "N/A"),
     ("color", locPair "N/A" "N/A")]

/-- The specifications expression of the detail page mapping: a truthy
payload is handed to JSON.parse (whose argument is first converted to
a string), a falsy payload yields the default object; a failed parse
is the SyntaxError throw. -/
def resolveSpecifications (p : SpecPayload) : Except String Json :=
  if specTruthy p then
    match jsonParse (specToString p) with
    | some j => Except.ok j
    | none => Except.error "SyntaxError"
  else Except.ok defaultSpecifications

/-- The single-record fetch mapping of the car detail page, after a
successful response: building the view model can throw inside the
specifications expression, and the surrounding catch turns any throw
into the page-level error message for the whole listing. -/
def fetchCar (strapiUrl id : String) (car : RawCar) : Except String ViewCarDetail :=
  match resolveSpecifications car.specifications with
  | Except.error _ => Except.error ("Car " ++ id ++ " fetch nahi hua, Strapi check kar!")
  | Except.ok specs =>
    Except.ok
      { id := car.id
        title := { en := car.title_en, ja := car.title_ja }
        price := parseInt (jsToString car.price)
        year := car.year
        mileage := { en := formatMileage car.mileage_en, ja := formatMileage car.mileage_ja }
        img :=
          match car.image with
          | none => none
          | some imgs =>
            if h : 0 < imgs.length then some (strapiUrl ++ (imgs.get ⟨0, h⟩).url) else none
        description :=
          { en := jsOrD car.description_en "No description available in English.",
            ja := jsOrD car.description_ja "英語の説明が利用できません。" }
        specifications := specs }

end CarDetail

/-- The language-setting effect shared by the pages: a truthy url
segment that is one of the two supported tags becomes the active
language, anything else falls back to the Japanese default. -/
def setLanguageFromUrl (lng : Option String) : String :=
  match lng with
  | some l => if l ≠ "" ∧ (l = "en" ∨ l = "ja") then l else "ja"
  | none => "ja"

/-- The normalisation the pages apply when reading the active
language: a language starting with the Japanese tag is Japanese,
everything else is English. -/
def currentLanguage (lang : String) : String :=
  if startsWithStr lang "ja" then "ja" else "en"

/-- Locale resolution of an optional url hint: the language-setting
effect followed by the normalised read. -/
def resolveLocale (lng : Option String) : String :=
  currentLanguage (setLanguageFromUrl lng)

/-- A store of JavaScript arrays of view models, indexed by reference,
to make the aliasing of the filter-then-sort chain explicit. -/
structure JsStore where
  arrays : List (List ViewCar)

/-- Array.prototype.filter: allocates a fresh array holding the kept
elements and returns its reference, leaving the receiver unchanged. -/
def allocFiltered (st : JsStore) (r : Nat) (p : ViewCar → Bool) : Nat × JsStore :=
  (st.arrays.length, ⟨st.arrays ++ [(st.arrays.getD r []).filter p]⟩)

/-- Array.prototype.sort: sorts the array behind the given reference
in place. -/
def sortInPlace (st : JsStore) (r : Nat) (le : ViewCar → ViewCar → Bool) : JsStore :=
  ⟨st.arrays.set r ((st.arrays.getD r []).mergeSort le)⟩

/-- The filter-then-sort chain of the cars listing page as a state
transformer on the array store: filter allocates a fresh array and
sort mutates that fresh array in place. -/
def filteredProg (st : JsStore) (carsRef : Nat) (query sort lang : String) : Nat × JsStore :=
  let step := allocFiltered st carsRef (Cars.filterPred lang query)
  (step.1, sortInPlace step.2 step.1 (Cars.carLe sort))

/-! ### Concrete fixtures used by witnesses and counterexamples -/

/-- The raw record of the end-to-end scenario of the specification. -/
def civicRaw : RawCar :=
  { id := 3
    title_en := some "Honda Civic"
    title_ja := some "ホンダ シビック"
    price := .str "4200000"
    year := 2019
    mileage_en := .num 45000
    mileage_ja := .num 45000
    image := some [{ url := "/uploads/civic.jpg" }] }

/-- A view model whose Japanese title is absent while the English one
is present, as produced from a raw record lacking the Japanese title. -/
def civicEnOnly : ViewCar :=
  { id := 1
    title := { en := some "Honda Civic", ja := none }
    price := some 4200000
    year := 2019
    mileage := { en := "45,000 km", ja := "45,000 km" }
    img := none }

/-- A view model with no title in either language, as produced from a
raw record lacking both title fields. -/
def titleless : ViewCar :=
  { id := 2
    title := { en := none, ja := none }
    price := some 1
    year := 2000
    mileage := { en := "N/A km", ja := "N/A km" }
    img := none }

/-- A compact view model constructor for sorting examples. -/
def mkCar (i : Int) (p : Option Int) (y : Int) : ViewCar :=
  { id := i
    title := { en := some "T", ja := some "T" }
    price := p
    year := y
    mileage := { en := "N/A km", ja := "N/A km" }
    img := none }

/-! ### Helper lemmas -/

/-- A decimal digit character is not whitespace. -/
theorem digit_not_whitespace (c : Char) (h : c.isDigit = true) : c.isWhitespace = false := by
  cases hw : c.isWhitespace with
  | false => rfl
  | true =>
    exfalso
    have h2 : c = ' ' ∨ c = '\t' ∨ c = '\x0d' ∨ c = '\x0a' := by
      simpa [Char.isWhitespace, or_assoc] using hw
    rcases h2 with rfl | rfl | rfl | rfl <;> simp [Char.isDigit] at h

/-- A decimal digit character is not the minus sign. -/
theorem digit_ne_minus (c : Char) (h : c.isDigit = true) : c ≠ '-' := by
  rintro rfl; simp [Char.isDigit] at h

/-- A decimal digit character is not the plus sign. -/
theorem digit_ne_plus (c : Char) (h : c.isDigit = true) : c ≠ '+' := by
  rintro rfl; simp [Char.isDigit] at h

/-- parseInt on a nonempty all-digit string returns the nonnegative
value denoted by the digits. -/
theorem parseInt_digits (s : String) (hne : s.data ≠ [])
    (hdig : ∀ c ∈ s.data, c.isDigit = true) :
    parseInt s = some ((digitsToNat s.data : Nat) : Int) := by
  unfold parseInt
  cases hd : s.data with
  | nil => exact absurd hd hne
  | cons c rest =>
    have hc : c.isDigit = true := hdig c (by rw [hd]; exact List.mem_cons_self c rest)
    have hrest : ∀ x ∈ rest, x.isDigit = true := fun x hx =>
      hdig x (by rw [hd]; exact List.mem_cons_of_mem c hx)
    rw [List.dropWhile_cons_of_neg (by simp [digit_not_whitespace c hc])]
    simp only [parseIntChars]
    rw [if_neg (digit_ne_minus c hc), if_neg (digit_ne_plus c hc)]
    unfold parseDigits
    rw [List.takeWhile_eq_self_iff.mpr (by
      intro x hx
      rcases List.mem_cons.mp hx with rfl | hx2
      · exact hc
      · exact hrest x hx2)]
    simp [List.isEmpty]

/-- The empty string occurs in every string, as with the JavaScript
includes method. -/
theorem includes_empty (s : String) : includes s "" = true := by
  unfold includes
  cases s.data with
  | nil => rfl
  | cons c rest => simp [occursIn, firstMatches]

/-- The logical-or fallback with a nonempty default never yields the
empty string. -/
theorem jsOrD_ne_empty (v : Option String) (d : String) (hd : d ≠ "") : jsOrD v d ≠ "" := by
  unfold jsOrD
  cases v with
  | none => exact hd
  | some s =>
    by_cases hs : s = ""
    · simp [hs, hd]
    · simp [hs]

/-- Appending the kilometre suffix never yields the empty string. -/
theorem append_km_ne_empty (s : String) : s ++ " km" ≠ "" := by
  intro h
  have h2 := congrArg String.data h
  simp [String.data_append] at h2

/-- The mileage formatter of the cars listing page never returns the
empty string. -/
theorem formatMileage_ne_empty (m : JsVal) : Cars.formatMileage m ≠ "" := by
  unfold Cars.formatMileage
  by_cases h : jsTruthy m = false
  · simp [h]
  · simp [h]; exact append_km_ne_empty _

/-- With the empty query, the filter keeps exactly the listings whose
consulted title (active-locale member with English fallback) is
defined. -/
theorem filter_empty_query (l : List ViewCar) (loc : String) :
    l.filter (Cars.filterPred loc "")
      = l.filter (fun c => (jsOrOpt (titleLookup c.title loc) c.title.en).isSome) := by
  apply List.filter_congr
  intro c hc
  unfold Cars.filterPred
  cases hj : jsOrOpt (titleLookup c.title loc) c.title.en with
  | none => simp
  | some t =>
    show includes (toLowerCase t) (toLowerCase (trim "")) = true
    exact includes_empty _

/-- The comparator ordering for the latest key is the reversed year
order. -/
theorem carLe_latest (a b : ViewCar) : Cars.carLe "latest" a b = decide (b.year ≤ a.year) := by
  simp only [Cars.carLe, Cars.comparator]
  simp [decide_eq_decide, sub_nonpos]

/-- The latest ordering is transitive. -/
theorem carLe_latest_trans (a b c : ViewCar) (h1 : Cars.carLe "latest" a b = true)
    (h2 : Cars.carLe "latest" b c = true) : Cars.carLe "latest" a c = true := by
  rw [carLe_latest] at h1 h2 ⊢
  simp at h1 h2 ⊢
  omega

/-- The latest ordering is total. -/
theorem carLe_latest_total (a b : ViewCar) :
    (Cars.carLe "latest" a b || Cars.carLe "latest" b a) = true := by
  rw [carLe_latest, carLe_latest]
  simp
  omega

/-- The sort step returns a permutation of its input for every key. -/
theorem sortCars_perm (sort : String) (l : List ViewCar) : (Cars.sortCars sort l).Perm l :=
  List.mergeSort_perm l (Cars.carLe sort)

/-- The sort step with the latest key is sorted by descending year. -/
theorem sortCars_latest_sorted (l : List ViewCar) :
    List.Pairwise (fun a b => b.year ≤ a.year) (Cars.sortCars "latest" l) := by
  have hs := List.sorted_mergeSort carLe_latest_trans carLe_latest_total l
  exact hs.imp (fun hab => by
    rw [carLe_latest] at hab
    exact of_decide_eq_true hab)

/-- The sort step with the latest key keeps every class of equal-year
listings in input order (stability). -/
theorem sortCars_latest_stable (l : List ViewCar) (y : Int) :
    (Cars.sortCars "latest" l).filter (fun c => decide (c.year = y))
      = l.filter (fun c => decide (c.year = y)) := by
  have hmem : ∀ a ∈ l.filter (fun c => decide (c.year = y)), a.year = y := by
    intro a ha
    exact of_decide_eq_true (List.mem_filter.mp ha).2
  have hpair : (l.filter (fun c => decide (c.year = y))).Pairwise
      (fun a b => Cars.carLe "latest" a b = true) := by
    apply List.pairwise_of_forall_mem_list
    intro a ha b hb
    rw [carLe_latest, hmem a ha, hmem b hb]
    simp
  have hsub : List.Sublist (l.filter (fun c => decide (c.year = y))) (Cars.sortCars "latest" l) :=
    List.sublist_mergeSort carLe_latest_trans carLe_latest_total hpair (List.filter_sublist l)
  have hsub2 := hsub.filter (fun c => decide (c.year = y))
  rw [List.filter_eq_self.mpr (fun a ha => (List.mem_filter.mp ha).2)] at hsub2
  have hlen : ((Cars.sortCars "latest" l).filter (fun c => decide (c.year = y))).length
      = (l.filter (fun c => decide (c.year = y))).length :=
    ((List.mergeSort_perm l (Cars.carLe "latest")).filter _).length_eq
  exact (hsub2.eq_of_length hlen.symm).symm

/-- The clean ascending price order used to reason about the price-low
key on NaN-free inputs. -/
def priceLeAsc (a b : ViewCar) : Bool := a.price.getD 0 ≤ b.price.getD 0

/-- The clean descending price order used to reason about the
price-high key on NaN-free inputs. -/
def priceLeDesc (a b : ViewCar) : Bool := b.price.getD 0 ≤ a.price.getD 0

/-- The ascending price order is transitive. -/
theorem priceLeAsc_trans (a b c : ViewCar) (h1 : priceLeAsc a b = true)
    (h2 : priceLeAsc b c = true) : priceLeAsc a c = true := by
  simp [priceLeAsc] at h1 h2 ⊢
  omega

/-- The ascending price order is total. -/
theorem priceLeAsc_total (a b : ViewCar) : (priceLeAsc a b || priceLeAsc b a) = true := by
  simp [priceLeAsc]
  omega

/-- The descending price order is transitive. -/
theorem priceLeDesc_trans (a b c : ViewCar) (h1 : priceLeDesc a b = true)
    (h2 : priceLeDesc b c = true) : priceLeDesc a c = true := by
  simp [priceLeDesc] at h1 h2 ⊢
  omega

/-- The descending price order is total. -/
theorem priceLeDesc_total (a b : ViewCar) : (priceLeDesc a b || priceLeDesc b a) = true := by
  simp [priceLeDesc]
  omega

/-- On listings with defined prices, the comparator ordering for the
price-low key is the ascending price order. -/
theorem carLe_priceLow_defined (a b : ViewCar) (ha : a.price.isSome = true)
    (hb : b.price.isSome = true) : Cars.carLe "price-low" a b = priceLeAsc a b := by
  obtain ⟨x, hx⟩ := Option.isSome_iff_exists.mp ha
  obtain ⟨y, hy⟩ := Option.isSome_iff_exists.mp hb
  simp only [Cars.carLe, Cars.comparator, priceLeAsc, hx, hy]
  simp [decide_eq_decide, sub_nonpos]

/-- On listings with defined prices, the comparator ordering for the
price-high key is the descending price order. -/
theorem carLe_priceHigh_defined (a b : ViewCar) (ha : a.price.isSome = true)
    (hb : b.price.isSome = true) : Cars.carLe "price-high" a b = priceLeDesc a b := by
  obtain ⟨x, hx⟩ := Option.isSome_iff_exists.mp ha
  obtain ⟨y, hy⟩ := Option.isSome_iff_exists.mp hb
  simp only [Cars.carLe, Cars.comparator, priceLeDesc, hx, hy]
  simp [decide_eq_decide, sub_nonpos]

/-- The sort step with the price-low key is sorted ascending by price
when every price is defined. -/
theorem sortCars_priceLow_sorted (l : List ViewCar) (hl : ∀ c ∈ l, c.price.isSome = true) :
    List.Pairwise (fun a b => a.price.getD 0 ≤ b.price.getD 0) (Cars.sortCars "price-low" l) := by
  have heq : ∀ a ∈ l, ∀ b ∈ l, Cars.carLe "price-low" a b = priceLeAsc (id a) (id b) :=
    fun a ha b hb => carLe_priceLow_defined a b (hl a ha) (hl b hb)
  have hmap := @List.map_mergeSort ViewCar ViewCar (Cars.carLe "price-low") priceLeAsc id l heq
  rw [List.map_id, List.map_id] at hmap
  unfold Cars.sortCars
  rw [hmap]
  have hs := List.sorted_mergeSort priceLeAsc_trans priceLeAsc_total l
  exact hs.imp (fun hab => of_decide_eq_true hab)

/-- The sort step with the price-high key is sorted descending by
price when every price is defined. -/
theorem sortCars_priceHigh_sorted (l : List ViewCar) (hl : ∀ c ∈ l, c.price.isSome = true) :
    List.Pairwise (fun a b => b.price.getD 0 ≤ a.price.getD 0) (Cars.sortCars "price-high" l) := by
  have heq : ∀ a ∈ l, ∀ b ∈ l, Cars.carLe "price-high" a b = priceLeDesc (id a) (id b) :=
    fun a ha b hb => carLe_priceHigh_defined a b (hl a ha) (hl b hb)
  have hmap := @List.map_mergeSort ViewCar ViewCar (Cars.carLe "price-high") priceLeDesc id l heq
  rw [List.map_id, List.map_id] at hmap
  unfold Cars.sortCars
  rw [hmap]
  have hs := List.sorted_mergeSort priceLeDesc_trans priceLeDesc_total l
  exact hs.imp (fun hab => of_decide_eq_true hab)

/-- An unrecognized sort key induces the constant-true ordering, so
the stable sort leaves the list unchanged. -/
theorem sortCars_unrecognized (sort : String) (l : List ViewCar)
    (h1 : sort ≠ "price-low") (h2 : sort ≠ "price-high") (h3 : sort ≠ "latest") :
    Cars.sortCars sort l = l := by
  have hle : ∀ a b : ViewCar, Cars.carLe sort a b = true := by
    intro a b
    simp [Cars.carLe, Cars.comparator, h1, h2, h3]
  exact List.mergeSort_of_sorted
    (List.pairwise_of_forall_mem_list (fun a _ b _ => hle a b))

/-! ### Claim theorems -/

/-- Claim C1: for every optional locale hint, locale resolution
returns exactly one of the two tags en and ja, and it returns en
exactly when the hint is the string en; every other hint, including an
absent, malformed or unsupported one, resolves to the Japanese
default. -/
theorem claim1_locale_resolution (h : Option String) :
    (resolveLocale h = "en" ∨ resolveLocale h = "ja")
    ∧ (resolveLocale h = "en" ↔ h = some "en") := by
  cases h with
  | none => exact ⟨Or.inr (by decide), by decide⟩
  | some l =>
    by_cases h1 : l = "en"
    · subst h1; exact ⟨Or.inl (by decide), by decide⟩
    · by_cases h2 : l = "ja"
      · subst h2; exact ⟨Or.inr (by decide), by decide⟩
      · have hja : resolveLocale (some l) = "ja" := by
          simp [resolveLocale, setLanguageFromUrl, currentLanguage, h1, h2]
          decide
        refine ⟨Or.inr hja, ?_⟩
        rw [hja]
        constructor
        · intro hc; exact absurd hc (by decide)
        · intro hc; exact absurd (Option.some.inj hc) h1

/-- Claim C1 witness: concrete resolutions for an unsupported hint, an
absent hint and the exact English hint. -/
theorem claim1_locale_resolution_witness :
    resolveLocale (some "fr") = "ja" ∧ resolveLocale none = "ja"
    ∧ resolveLocale (some "en") = "en" := by
  refine ⟨?_, ?_, ?_⟩
  · rcases (claim1_locale_resolution (some "fr")).1 with he | hj
    · exact absurd ((claim1_locale_resolution (some "fr")).2.mp he) (by decide)
    · exact hj
  · rcases (claim1_locale_resolution none).1 with he | hj
    · exact absurd ((claim1_locale_resolution none).2.mp he) (by decide)
    · exact hj
  · exact (claim1_locale_resolution (some "en")).2.mpr rfl

/-- Claim C2 counterexample: the mapped price is the bare parseInt of
the raw price, so a non-parseable or absent price maps to NaN (modelled
as none), not to 0, and a parseable negative price stays negative. -/
theorem claim2_counterexample :
    (Cars.mappedCar "http://x" { price := JsVal.str "abc" }).price = none
    ∧ (Cars.mappedCar "http://x" ({ } : RawCar)).price = none
    ∧ (Cars.mappedCar "http://x" { price := JsVal.str "-5" }).price = some (-5)
    ∧ ¬ (0 : Int) ≤ -5 := by
  exact ⟨rfl, rfl, by decide, by decide⟩

/-- Claim C2 as amended: the mapped price is the base-10 parseInt of
the raw price, so a nonempty all-digit price string maps to its
nonnegative integer value (in particular 3500000 for the string
3500000), while an absent or non-parseable price maps to the NaN value
(none), not to 0. -/
theorem claim2_price_mapping :
    (∀ (base : String) (car : RawCar) (s : String), car.price = JsVal.str s →
      s.data ≠ [] → (∀ c ∈ s.data, c.isDigit = true) →
      ∃ n : Nat, (Cars.mappedCar base car).price = some (n : Int))
    ∧ (Cars.mappedCar "http://x" { price := JsVal.str "3500000" }).price = some 3500000
    ∧ (Cars.mappedCar "http://x" ({ } : RawCar)).price = none
    ∧ (Cars.mappedCar "http://x" { price := JsVal.str "abc" }).price = none := by
  refine ⟨?_, by decide, rfl, rfl⟩
  intro base car s hp hne hdig
  refine ⟨digitsToNat s.data, ?_⟩
  show parseInt (jsToString car.price) = _
  rw [hp]
  exact parseInt_digits s hne hdig

/-- Claim C2 witness: a concrete digit-string price maps to a
nonnegative integer. -/
theorem claim2_price_mapping_witness :
    ∃ n : Nat, (Cars.mappedCar "http://x" { price := JsVal.str "4200000" }).price = some (n : Int) :=
  claim2_price_mapping.1 "http://x" { price := JsVal.str "4200000" } "4200000" rfl
    (by decide) (by decide)

/-- Claim C3: the cars listing page copy of the mileage formatter has
no NaN guard, so a truthy non-parseable input renders as NaN km
instead of the intended N/A km fallback that the home page copy (and
the specification) produce; the falsy and parseable cases agree with
the claim in both copies. -/
theorem claim3_mileage_bug :
    Cars.formatMileage (JsVal.str "abc") = "NaN km"
    ∧ Home.formatMileage (JsVal.str "abc") = "N/A km"
    ∧ Cars.formatMileage (JsVal.num 0) = "N/A km"
    ∧ Cars.formatMileage JsVal.undefined = "N/A km"
    ∧ Cars.formatMileage (JsVal.num 80000) = "80,000 km"
    ∧ Home.formatMileage (JsVal.num 80000) = "80,000 km" := by
  decide

/-- Claim C10 counterexample: the two mileage formatter copies differ
on the non-parseable truthy input abc. -/
theorem claim10_counterexample :
    ¬ (Cars.formatMileage (JsVal.str "abc") = Home.formatMileage (JsVal.str "abc")) := by
  decide

/-- Claim C10 as amended: the two mileage formatter copies agree on
every falsy input and on every input whose string form parses as an
integer; on a truthy input that fails to parse they diverge, the cars
listing page copy rendering NaN km and the home page copy N/A km. -/
theorem claim10_mileage_copies (m : JsVal) :
    (jsTruthy m = false → Cars.formatMileage m = Home.formatMileage m)
    ∧ (∀ n : Int, parseInt (jsToString m) = some n →
        Cars.formatMileage m = Home.formatMileage m)
    ∧ (jsTruthy m = true → parseInt (jsToString m) = none →
        Cars.formatMileage m = "NaN km" ∧ Home.formatMileage m = "N/A km") := by
  refine ⟨?_, ?_, ?_⟩
  · intro hf
    simp [Cars.formatMileage, Home.formatMileage, hf]
  · intro n hn
    by_cases hf : jsTruthy m = false
    · simp [Cars.formatMileage, Home.formatMileage, hf]
    · simp [Cars.formatMileage, Home.formatMileage, hf, hn, numToLocaleString]
  · intro ht hn
    simp [Cars.formatMileage, Home.formatMileage, ht, hn, numToLocaleString]

/-- Claim C10 witness: the copies agree at a concrete falsy input. -/
theorem claim10_mileage_copies_witness :
    Cars.formatMileage (JsVal.num 0) = Home.formatMileage (JsVal.num 0) :=
  (claim10_mileage_copies (JsVal.num 0)).1 rfl

/-- Claim C4 counterexample: when the CMS omits the Japanese title,
the mapped Japanese title member is undefined (none), not a defined
default. -/
theorem claim4_counterexample :
    (Cars.mappedCar "http://x" { title_en := some "Honda Civic" }).title.ja = none := rfl

/-- Claim C4 as amended: the mapped mileage members are always defined
nonempty strings, the detail page description members are always
defined nonempty strings (falling back to fixed defaults), and an
absent specifications payload yields the defined default set; the
title members however are copied directly from the raw record, so the
mapped Japanese title is undefined exactly when the CMS omitted it. -/
theorem claim4_bilingual_fields :
    (∀ (base : String) (car : RawCar),
      (Cars.mappedCar base car).mileage.en ≠ "" ∧ (Cars.mappedCar base car).mileage.ja ≠ "")
    ∧ (∀ (base id : String) (car : RawCar) (v : ViewCarDetail),
        CarDetail.fetchCar base id car = Except.ok v →
        v.description.en ≠ "" ∧ v.description.ja ≠ "")
    ∧ (∀ (base id : String) (car : RawCar), car.specifications = SpecPayload.undefined →
        (CarDetail.fetchCar base id car).map ViewCarDetail.specifications
          = Except.ok CarDetail.defaultSpecifications)
    ∧ (∀ (base : String) (car : RawCar), (Cars.mappedCar base car).title.ja = car.title_ja) := by
  refine ⟨?_, ?_, ?_, ?_⟩
  · exact fun base car => ⟨formatMileage_ne_empty _, formatMileage_ne_empty _⟩
  · intro base id car v hv
    cases hrs : CarDetail.resolveSpecifications car.specifications with
    | error e =>
      unfold CarDetail.fetchCar at hv
      rw [hrs] at hv
      exact absurd hv (by simp)
    | ok specs =>
      unfold CarDetail.fetchCar at hv
      rw [hrs] at hv
      have h2 := Except.ok.inj hv
      subst h2
      exact ⟨jsOrD_ne_empty _ _ (by decide), jsOrD_ne_empty _ _ (by decide)⟩
  · intro base id car hspec
    unfold CarDetail.fetchCar
    rw [hspec]
    rfl
  · exact fun base car => rfl

/-- Claim C4 witness: an all-absent raw record maps with the default
specifications set. -/
theorem claim4_bilingual_fields_witness :
    (CarDetail.fetchCar "http://x" "3" ({ } : RawCar)).map ViewCarDetail.specifications
      = Except.ok CarDetail.defaultSpecifications :=
  claim4_bilingual_fields.2.2.1 "http://x" "3" { } rfl

/-- Claim C7: a raw record with an absent or empty image list maps to
an absent image url, and a raw record with at least one image maps to
the base url concatenated with the relative path of the first image. -/
theorem claim7_image_url (base : String) (car : RawCar) :
    ((car.image = none ∨ car.image = some []) → (Cars.mappedCar base car).img = none)
    ∧ (∀ (i : ImageRec) (rest : List ImageRec), car.image = some (i :: rest) →
        (Cars.mappedCar base car).img = some (base ++ i.url)) := by
  constructor
  · rintro (h | h) <;> simp [Cars.mappedCar, h]
  · intro i rest h
    simp [Cars.mappedCar, h]

/-- Claim C7 witness: concrete image resolution for an imageless
record and for the civic scenario record. -/
theorem claim7_image_url_witness :
    (Cars.mappedCar "http://x" ({ } : RawCar)).img = none
    ∧ (Cars.mappedCar "http://x" civicRaw).img = some "http://x/uploads/civic.jpg" := by
  constructor
  · exact (claim7_image_url "http://x" { }).1 (Or.inl rfl)
  · exact (claim7_image_url "http://x" civicRaw).2 { url := "/uploads/civic.jpg" } [] rfl

/-- Claim C5 counterexample: with the Japanese locale active, a
listing whose Japanese title is absent is kept because the filter
falls back to the English title, so more than the active-locale title
is consulted; and the empty query drops a listing with no title in
either language instead of keeping every listing. -/
theorem claim5_counterexample :
    (Cars.filterPred "ja" "honda" civicEnOnly = true ∧ civicEnOnly.title.ja = none)
    ∧ Cars.filterPred "en" "" titleless = false := by
  decide

/-- Claim C5 as amended: the title the filter consults is the
active-locale member with a logical-or fallback to the English member
when the former is absent or empty; when the Japanese title is present
and nonempty only it is consulted, a listing with no consultable title
is always dropped, and the empty query keeps exactly the listings
whose consulted title is defined. -/
theorem claim5_filter_semantics :
    (∀ (c : ViewCar) (q loc : String), c.title.en = none → c.title.ja = none →
      Cars.filterPred loc q c = false)
    ∧ (∀ (c : ViewCar) (q t : String), c.title.ja = some t → t ≠ "" →
        Cars.filterPred "ja" q c = includes (toLowerCase t) (toLowerCase (trim q)))
    ∧ (∀ (c : ViewCar) (q : String), (c.title.ja = none ∨ c.title.ja = some "") →
        Cars.filterPred "ja" q c
          = (match c.title.en with
             | some t => includes (toLowerCase t) (toLowerCase (trim q))
             | none => false))
    ∧ (∀ (l : List ViewCar) (loc : String),
        l.filter (Cars.filterPred loc "")
          = l.filter (fun c => (jsOrOpt (titleLookup c.title loc) c.title.en).isSome)) := by
  refine ⟨?_, ?_, ?_, ?_⟩
  · intro c q loc he hja
    simp [Cars.filterPred, titleLookup, jsOrOpt, he, hja]
  · intro c q t hja ht
    simp [Cars.filterPred, titleLookup, jsOrOpt, hja, ht]
  · intro c q h
    rcases h with hja | hja <;>
      · cases he : c.title.en with
        | none => simp [Cars.filterPred, titleLookup, jsOrOpt, hja, he]
        | some t => simp [Cars.filterPred, titleLookup, jsOrOpt, hja, he]
  · intro l loc
    apply List.filter_congr
    intro c hc
    unfold Cars.filterPred
    cases hj : jsOrOpt (titleLookup c.title loc) c.title.en with
    | none => simp
    | some t =>
      show includes (toLowerCase t) (toLowerCase (trim "")) = true
      exact includes_empty _

/-- Claim C5 witness: a listing with no title is dropped under an
unsupported locale key as well. -/
theorem claim5_filter_semantics_witness :
    Cars.filterPred "fr" "query" titleless = false :=
  claim5_filter_semantics.1 titleless "query" "fr" rfl rfl

/-- A concrete serialized specifications text of the name-to-pair
shape, used by the claim C8 theorems. -/
def specTextSample : String :=
  "\x7b\"engine\": \x7b\"en\": \"2.0L\", \"ja\": \"2.0L\"\x7d, \"fuel\": \x7b\"en\": \"Petrol\", \"ja\": \"ガソリン\"\x7d\x7d"

/-- The mapping denoted by specTextSample. -/
def specObjSample : List (String × Json) :=
  [("engine", locPair "2.0L" "2.0L"), ("fuel", locPair "Petrol" "ガソリン")]

/-- Claim C8 counterexample: an already-shaped object payload is not
passed through unchanged; JSON.parse receives its string coercion
[object Object], fails, and the whole listing fetch lands in the
page-level error state rather than a specifications-scoped one. -/
theorem claim8_counterexample :
    CarDetail.fetchCar "http://x" "3" { specifications := SpecPayload.obj specObjSample }
      = Except.error "Car 3 fetch nahi hua, Strapi check kar!" := rfl

/-- Claim C8 as amended: an object payload always makes the whole
fetch fail with the page-level error message, because JSON.parse is
applied unconditionally to its string coercion; an absent or
empty-string payload yields exactly the fixed four-entry default set;
a serialized text of the shape deserializes with key order preserved;
and a malformed text makes the whole fetch fail with the page-level
error message instead of a specifications-scoped error state. -/
theorem claim8_specifications :
    (∀ (base id : String) (car : RawCar) (m : List (String × Json)),
       car.specifications = SpecPayload.obj m →
       CarDetail.fetchCar base id car
         = Except.error ("Car " ++ id ++ " fetch nahi hua, Strapi check kar!"))
    ∧ (∀ (base id : String) (car : RawCar),
       car.specifications = SpecPayload.undefined ∨ car.specifications = SpecPayload.str "" →
       (CarDetail.fetchCar base id car).map ViewCarDetail.specifications
         = Except.ok CarDetail.defaultSpecifications)
    ∧ ((CarDetail.fetchCar "http://x" "7"
          { specifications := SpecPayload.str specTextSample }).map ViewCarDetail.specifications
        = Except.ok (Json.obj specObjSample))
    ∧ (CarDetail.fetchCar "http://x" "7" { specifications := SpecPayload.str "\x7b broken" }
        = Except.error "Car 7 fetch nahi hua, Strapi check kar!") := by
  refine ⟨?_, ?_, rfl, rfl⟩
  · intro base id car m hspec
    unfold CarDetail.fetchCar
    rw [hspec]
    rfl
  · intro base id car hspec
    rcases hspec with hspec | hspec <;>
      · unfold CarDetail.fetchCar
        rw [hspec]
        rfl

/-- Claim C8 witness: a concrete object payload makes the whole fetch
fail with the page-level message. -/
theorem claim8_specifications_witness :
    CarDetail.fetchCar "http://x" "9" { specifications := SpecPayload.obj [] }
      = Except.error "Car 9 fetch nahi hua, Strapi check kar!" :=
  claim8_specifications.1 "http://x" "9" { specifications := SpecPayload.obj [] } [] rfl

/-- Claim C6 counterexample: the combined filter and sort on the empty
query drops a listing with no title, so the result is not a
permutation of the input; and on a list containing NaN prices the
price-low key does not order the defined prices ascending, since a NaN
comparator result counts as equal and the stable sort leaves the list
with price 5 before price 3. -/
theorem claim6_counterexample :
    ¬ (Cars.filtered [titleless] "" "latest" "en").Perm [titleless]
    ∧ Cars.sortCars "price-low"
        [mkCar 1 (some 5) 0, mkCar 2 none 0, mkCar 3 none 0, mkCar 4 (some 3) 0]
      = [mkCar 1 (some 5) 0, mkCar 2 none 0, mkCar 3 none 0, mkCar 4 (some 3) 0]
    ∧ ¬ List.Pairwise (fun a b => ((Cars.comparator "price-low" a b).getD 0 : Int) ≤ 0)
        (Cars.sortCars "price-low"
          [mkCar 1 (some 5) 0, mkCar 2 none 0, mkCar 3 none 0, mkCar 4 (some 3) 0]) := by
  have h1 : Cars.filtered [titleless] "" "latest" "en" = [] := by
    simp [Cars.filtered, Cars.sortCars, Cars.filterPred, titleless, titleLookup, jsOrOpt]
  have h2 : Cars.sortCars "price-low"
      [mkCar 1 (some 5) 0, mkCar 2 none 0, mkCar 3 none 0, mkCar 4 (some 3) 0]
      = [mkCar 1 (some 5) 0, mkCar 2 none 0, mkCar 3 none 0, mkCar 4 (some 3) 0] := by
    simp [Cars.sortCars, List.mergeSort, List.merge, Cars.carLe, Cars.comparator, mkCar]
  refine ⟨?_, h2, ?_⟩
  · rw [h1]
    intro hp
    have := hp.length_eq
    simp at this
  · rw [h2]
    decide

/-- Claim C6 as amended: the sort step always returns a permutation;
the latest key sorts by descending year and keeps equal-year listings
in input order; the price keys sort ascending respectively descending
by price provided every price is defined (a NaN price breaks the
ordering); an unrecognized key leaves the list unchanged; and the
combined filter and sort on the empty query with the latest key is a
stable descending-year permutation of the sublist of listings whose
consulted title is defined, not of the whole input. -/
theorem claim6_sorting :
    (∀ (l : List ViewCar) (sort : String), (Cars.sortCars sort l).Perm l)
    ∧ (∀ l : List ViewCar,
        List.Pairwise (fun a b => b.year ≤ a.year) (Cars.sortCars "latest" l))
    ∧ (∀ (l : List ViewCar) (y : Int),
        (Cars.sortCars "latest" l).filter (fun c => decide (c.year = y))
          = l.filter (fun c => decide (c.year = y)))
    ∧ (∀ l : List ViewCar, (∀ c ∈ l, c.price.isSome = true) →
        List.Pairwise (fun a b => a.price.getD 0 ≤ b.price.getD 0)
          (Cars.sortCars "price-low" l))
    ∧ (∀ l : List ViewCar, (∀ c ∈ l, c.price.isSome = true) →
        List.Pairwise (fun a b => b.price.getD 0 ≤ a.price.getD 0)
          (Cars.sortCars "price-high" l))
    ∧ (∀ (l : List ViewCar) (sort : String),
        sort ≠ "price-low" → sort ≠ "price-high" → sort ≠ "latest" →
        Cars.sortCars sort l = l)
    ∧ (∀ l : List ViewCar,
        (Cars.filtered l "" "latest" "en").Perm
          (l.filter (fun c => (jsOrOpt (titleLookup c.title "en") c.title.en).isSome))
        ∧ List.Pairwise (fun a b => b.year ≤ a.year) (Cars.filtered l "" "latest" "en")
        ∧ ∀ y : Int,
            (Cars.filtered l "" "latest" "en").filter (fun c => decide (c.year = y))
              = (l.filter (fun c => (jsOrOpt (titleLookup c.title "en") c.title.en).isSome)).filter
                  (fun c => decide (c.year = y))) := by
  refine ⟨?_, ?_, ?_, ?_, ?_, ?_, ?_⟩
  · exact fun l sort => sortCars_perm sort l
  · exact sortCars_latest_sorted
  · exact sortCars_latest_stable
  · exact sortCars_priceLow_sorted
  · exact sortCars_priceHigh_sorted
  · exact fun l sort h1 h2 h3 => sortCars_unrecognized sort l h1 h2 h3
  · intro l
    have h0 : Cars.filtered l "" "latest" "en"
        = Cars.sortCars "latest"
            (l.filter (fun c => (jsOrOpt (titleLookup c.title "en") c.title.en).isSome)) := by
      unfold Cars.filtered
      rw [filter_empty_query]
    refine ⟨?_, ?_, ?_⟩
    · rw [h0]; exact sortCars_perm _ _
    · rw [h0]; exact sortCars_latest_sorted _
    · intro y; rw [h0]; exact sortCars_latest_stable _ y

/-- Claim C6 witness: a concrete unrecognized key leaves a concrete
list unchanged. -/
theorem claim6_sorting_witness :
    Cars.sortCars "foo" [civicEnOnly, titleless] = [civicEnOnly, titleless] :=
  claim6_sorting.2.2.2.2.2.1 [civicEnOnly, titleless] "foo" (by decide) (by decide) (by decide)

/-- A concrete one-array store for the claim C9 witness. -/
def storeSample : JsStore := ⟨[[civicEnOnly, titleless]]⟩

/-- Claim C9: the filter-then-sort chain never mutates the input
array: filter allocates a fresh array and sort mutates only that fresh
array, so after the chain the input reference still holds its original
elements in their original order, and the returned reference is a new
one holding the filtered and sorted sequence. -/
theorem claim9_no_mutation (st : JsStore) (carsRef : Nat) (q sort lang : String)
    (h : carsRef < st.arrays.length) :
    (filteredProg st carsRef q sort lang).2.arrays.getD carsRef []
        = st.arrays.getD carsRef []
    ∧ (filteredProg st carsRef q sort lang).1 ≠ carsRef
    ∧ (filteredProg st carsRef q sort lang).2.arrays.getD
        (filteredProg st carsRef q sort lang).1 []
        = Cars.filtered (st.arrays.getD carsRef []) q sort lang := by
  have hne : st.arrays.length ≠ carsRef := Nat.ne_of_gt h
  refine ⟨?_, ?_, ?_⟩
  · simp only [filteredProg, allocFiltered, sortInPlace, List.getD_eq_getElem?_getD]
    rw [List.getElem?_set_ne hne, List.getElem?_append_left h]
  · exact fun hc => hne hc
  · simp only [filteredProg, allocFiltered, sortInPlace, List.getD_eq_getElem?_getD]
    rw [List.getElem?_set_self (by simp)]
    simp only [Option.getD_some]
    rw [List.getElem?_concat_length]
    simp only [Option.getD_some]
    rfl

/-- Claim C9 witness: the chain applied to a concrete one-array store
leaves the input array untouched and returns a fresh reference holding
the filtered and sorted sequence. -/
theorem claim9_no_mutation_witness :
    (filteredProg storeSample 0 "" "latest" "en").2.arrays.getD 0 []
        = storeSample.arrays.getD 0 []
    ∧ (filteredProg storeSample 0 "" "latest" "en").1 ≠ 0
    ∧ (filteredProg storeSample 0 "" "latest" "en").2.arrays.getD
        (filteredProg storeSample 0 "" "latest" "en").1 []
        = Cars.filtered (storeSample.arrays.getD 0 []) "" "latest" "en" :=
  claim9_no_mutation storeSample 0 "" "latest" "en" (by decide)

end HudaStrapi
